import Mathlib

/-!
Verification of the athena orb core against its specification.

The definitions below are a shallow embedding of the three core pieces of
the repository:

* the audio feature extractor (file `client/src/hooks/useAudioAnalyzer.ts`,
  function `analyze`), embedded over the rationals and the reals with byte
  samples as `Fin 256` (the `Uint8Array` element type);
* the orb mode state machine (file `client/src/hooks/useOrbState.ts`,
  hook `useOrbState`), embedded as explicit state passing together with a
  live-timer environment, so that the `setTimeout` and `clearTimeout`
  discipline is provable rather than merely structural;
* the particle renderer (file `client/src/components/ParticleOrb.tsx`),
  embedded over the rationals (JavaScript numbers treated as exact
  rationals).

Definitions come first, then the theorems.
-/

namespace Athena

/-- Visualization modes (file `types.ts`, type `OrbMode`). -/
inductive OrbMode
  | idle
  | listening
  | thinking
  | speaking
deriving DecidableEq, Repr

/-! Feature extractor: `useAudioAnalyzer.ts`, `analyze`, lines 70 to 119. -/

/-- Width in Hz of one frequency bin, `nyquist / binCount` (line 81). -/
def binWidth (binCount : ℕ) (nyquist : ℚ) : ℚ :=
  nyquist / binCount

/-- Bin index of a band boundary in Hz, `Math.floor(hz / binWidth)`. -/
def hzToBin (binCount : ℕ) (nyquist : ℚ) (hz : ℚ) : ℕ :=
  (⌊hz / binWidth binCount nyquist⌋).toNat

/-- First bin after the bass band,
`bassEnd = Math.min(Math.floor(250 / binWidth), binCount)` (line 84). -/
def bassEnd (binCount : ℕ) (nyquist : ℚ) : ℕ :=
  min (hzToBin binCount nyquist 250) binCount

/-- First bin after the mid band,
`midEnd = Math.min(Math.floor(2000 / binWidth), binCount)` (line 93); the
mid loop starts at `midStart = bassEnd` (line 92). -/
def midEnd (binCount : ℕ) (nyquist : ℚ) : ℕ :=
  min (hzToBin binCount nyquist 2000) binCount

/-- Bins summed by the bass loop, indices `0 ≤ i < bassEnd` (line 86). -/
def bassBins (binCount : ℕ) (nyquist : ℚ) : Finset ℕ :=
  Finset.Ico 0 (bassEnd binCount nyquist)

/-- Bins summed by the mid loop, indices `midStart ≤ i < midEnd`
(line 95). -/
def midBins (binCount : ℕ) (nyquist : ℚ) : Finset ℕ :=
  Finset.Ico (bassEnd binCount nyquist) (midEnd binCount nyquist)

/-- Bins summed by the treble loop, indices `trebleStart ≤ i < binCount`
with `trebleStart = midEnd` (lines 101 and 103). -/
def trebleBins (binCount : ℕ) (nyquist : ℚ) : Finset ℕ :=
  Finset.Ico (midEnd binCount nyquist) binCount

/-- One byte sample centered and normalized, `(v - 128) / 128`
(line 73). -/
def normalizedSample (v : Fin 256) : ℚ :=
  (((v : ℕ) : ℚ) - 128) / 128

/-- Radicand of the amplitude, `sum / timeDomainData.length`, where `sum`
accumulates `normalized * normalized` (lines 71 to 75). -/
def meanSquare (buf : List (Fin 256)) : ℚ :=
  (buf.map (fun v => normalizedSample v ^ 2)).sum / buf.length

/-- RMS amplitude of a time-domain byte buffer,
`Math.sqrt(sum / timeDomainData.length)` (line 76). -/
noncomputable def amplitude (buf : List (Fin 256)) : ℝ :=
  Real.sqrt ((meanSquare buf : ℚ) : ℝ)

/-! Mode state machine: `useOrbState.ts`, `useOrbState`.

The hook owns `mode` (a `useState`) and `timeoutRef` (a `useRef` holding at
most one JavaScript timer id).  To make the `setTimeout` and `clearTimeout`
discipline provable rather than structural, the embedding also carries the
timer environment of the host: `live` is the list of timers currently
scheduled (created by `setTimeout`, removed by `clearTimeout` or by
firing), and `nextId` is the id the host will hand to the next `setTimeout`
call. -/

/-- Configuration options (`UseOrbStateOptions` with defaults applied). -/
structure OrbOptions where
  listeningTimeout : ℕ
  thinkingTimeout : ℕ
  autoIdle : Bool
deriving DecidableEq, Repr

/-- Default options (`useOrbState.ts` lines 34 to 38). -/
def defaultOrbOptions : OrbOptions :=
  { listeningTimeout := 2000, thinkingTimeout := 30000, autoIdle := true }

/-- A live `setTimeout` callback.  Every timeout armed by `useOrbState`
sets the mode to `idle` when it fires, so a live timer is fully described
by its timer id and the milliseconds remaining until it fires. -/
structure PendingTimer where
  id : ℕ
  remaining : ℕ
deriving DecidableEq, Repr

/-- Hook state plus timer environment. -/
structure OrbState where
  mode : OrbMode
  timeoutRef : Option ℕ
  live : List PendingTimer
  nextId : ℕ
deriving DecidableEq, Repr

/-- Initial state: mode `idle`, null ref, nothing scheduled. -/
def initOrbState : OrbState :=
  { mode := OrbMode.idle, timeoutRef := none, live := [], nextId := 0 }

/-- Function `clearTimeouts` (lines 53 to 58): if the ref holds a timer
id, cancel that timer (`clearTimeout`) and null the ref; otherwise do
nothing. -/
def clearTimeouts (s : OrbState) : OrbState :=
  match s.timeoutRef with
  | some i =>
      { s with timeoutRef := none, live := s.live.filter (fun p => p.id != i) }
  | none => s

/-- Scheduling step `timeoutRef.current = setTimeout(..., delay)` with a
callback that sets the mode to `idle` (lines 73 to 75, 91 to 93, and 124
to 126): schedule a fresh timer and remember its id. -/
def armIdleTimer (delay : ℕ) (s : OrbState) : OrbState :=
  { s with
    timeoutRef := some s.nextId
    live := s.live ++ [{ id := s.nextId, remaining := delay }]
    nextId := s.nextId + 1 }

/-- Operation `setMode` (lines 61 to 64). -/
def setMode (m : OrbMode) (s : OrbState) : OrbState :=
  { clearTimeouts s with mode := m }

/-- Operation `startListening` (lines 67 to 77); `lastVoiceActivityRef`
is not modelled because nothing in the hook reads it. -/
def startListening (o : OrbOptions) (s : OrbState) : OrbState :=
  let s1 := { clearTimeouts s with mode := OrbMode.listening }
  if o.autoIdle then armIdleTimer o.listeningTimeout s1 else s1

/-- Operation `stopListening` (lines 80 to 83). -/
def stopListening (s : OrbState) : OrbState :=
  { clearTimeouts s with mode := OrbMode.idle }

/-- Operation `startThinking` (lines 86 to 94): always arms the safety
timeout. -/
def startThinking (o : OrbOptions) (s : OrbState) : OrbState :=
  armIdleTimer o.thinkingTimeout { clearTimeouts s with mode := OrbMode.thinking }

/-- Operation `startSpeaking` (lines 97 to 100). -/
def startSpeaking (s : OrbState) : OrbState :=
  { clearTimeouts s with mode := OrbMode.speaking }

/-- Operation `stopSpeaking` (lines 103 to 106). -/
def stopSpeaking (s : OrbState) : OrbState :=
  { clearTimeouts s with mode := OrbMode.idle }

/-- Operation `reset` (lines 109 to 112). -/
def reset (s : OrbState) : OrbState :=
  { clearTimeouts s with mode := OrbMode.idle }

/-- Operation `updateVoiceActivity` (lines 115 to 129): a no-op unless
the mode is `listening`; while listening, a `true` signal cancels the
pending timer and, when auto-idle is enabled, re-arms it with the full
listening timeout. -/
def updateVoiceActivity (o : OrbOptions) (isActive : Bool) (s : OrbState) :
    OrbState :=
  if s.mode ≠ OrbMode.listening then s
  else if isActive then
    let s1 := clearTimeouts s
    if o.autoIdle then armIdleTimer o.listeningTimeout s1 else s1
  else s

/-- Passage of `d` milliseconds with no operation invoked: every live
timer whose remaining delay is at most `d` fires — its callback sets the
mode to `idle` — and leaves the environment; the rest keep ticking down.
A firing timer does not null `timeoutRef` (JavaScript leaves the stale id
in the ref). -/
def elapse (d : ℕ) (s : OrbState) : OrbState :=
  { s with
    mode :=
      if s.live.any (fun p => decide (p.remaining ≤ d)) then OrbMode.idle
      else s.mode
    live :=
      (s.live.filter (fun p => decide (d < p.remaining))).map
        (fun p => { id := p.id, remaining := p.remaining - d }) }

/-- One invocation of the hook interface, or undisturbed passage of
time. -/
inductive OrbOp
  | opSetMode (m : OrbMode)
  | opStartListening
  | opStopListening
  | opStartThinking
  | opStartSpeaking
  | opStopSpeaking
  | opReset
  | opUpdateVoiceActivity (isActive : Bool)
  | opElapse (d : ℕ)
deriving DecidableEq, Repr

/-- Dispatch of an operation to its state function. -/
def applyOp (o : OrbOptions) : OrbOp → OrbState → OrbState
  | .opSetMode m => setMode m
  | .opStartListening => startListening o
  | .opStopListening => stopListening
  | .opStartThinking => startThinking o
  | .opStartSpeaking => startSpeaking
  | .opStopSpeaking => stopSpeaking
  | .opReset => reset
  | .opUpdateVoiceActivity b => updateVoiceActivity o b
  | .opElapse d => elapse d

/-- The seven transition operations named by the invariant of claim C2. -/
def isTransitionOp : OrbOp → Bool
  | .opSetMode _ => true
  | .opStartListening => true
  | .opStopListening => true
  | .opStartThinking => true
  | .opStartSpeaking => true
  | .opStopSpeaking => true
  | .opReset => true
  | .opUpdateVoiceActivity _ => false
  | .opElapse _ => false

/-- Well-formedness of a machine state: at most one timer is scheduled,
the ref knows every scheduled timer, and scheduled ids are below the id
counter. -/
def OrbInv (s : OrbState) : Prop :=
  s.live.length ≤ 1 ∧
  (∀ p ∈ s.live, s.timeoutRef = some p.id) ∧
  (∀ p ∈ s.live, p.id < s.nextId)

/-- Cancellation property of an operation: every timer scheduled before
the operation is gone afterwards, so no stale timer can ever fire in the
new state. -/
def cancelsStale (s sNew : OrbState) : Prop :=
  ∀ p ∈ s.live, ∀ q ∈ sNew.live, q.id ≠ p.id

instance (s : OrbState) : Decidable (OrbInv s) := by
  unfold OrbInv
  infer_instance

instance (s sNew : OrbState) : Decidable (cancelsStale s sNew) := by
  unfold cancelsStale
  infer_instance

/-- Bound on a call schedule: every gap is strictly shorter than `t`. -/
def allShorter (t : ℕ) (gaps : List ℕ) : Prop :=
  ∀ d ∈ gaps, d < t

instance (t : ℕ) (gaps : List ℕ) : Decidable (allShorter t gaps) := by
  unfold allShorter
  infer_instance

/-- Listening scenario of claim C3: for each gap `d` in turn, `d`
milliseconds pass and then `updateVoiceActivity(true)` is called. -/
def runVoice (o : OrbOptions) (gaps : List ℕ) (s : OrbState) : OrbState :=
  match gaps with
  | [] => s
  | d :: rest => runVoice o rest (updateVoiceActivity o true (elapse d s))

/-- Shape predicate: the machine is listening with exactly one armed
idle-fallback timer, `r` milliseconds from firing. -/
def listeningArmed (r : ℕ) (s : OrbState) : Prop :=
  s.mode = OrbMode.listening ∧
  ∃ i, i < s.nextId ∧ s.timeoutRef = some i ∧
    s.live = [{ id := i, remaining := r }]

/-! Particle renderer: `ParticleOrb.tsx`.  JavaScript numbers are embedded
as exact rationals. -/

/-- Mode behaviour parameters (table `MODE_PARAMS`, lines 20 to 55). -/
structure ModeParams where
  radiusScale : ℚ
  jitter : ℚ
  rotationSpeed : ℚ
  pulseSpeed : ℚ
  particleAlpha : ℚ
deriving DecidableEq, Repr

/-- Mode colors (table `MODE_COLORS`, lines 12 to 17). -/
structure ModeColor where
  hue : ℚ
  saturation : ℚ
  lightness : ℚ
deriving DecidableEq, Repr

/-- Table `MODE_PARAMS`. -/
def MODE_PARAMS : OrbMode → ModeParams
  | .idle => { radiusScale := 9/10, jitter := 3/10, rotationSpeed := 1/10,
               pulseSpeed := 1/2, particleAlpha := 2/5 }
  | .listening => { radiusScale := 1, jitter := 4/5, rotationSpeed := 3/10,
                    pulseSpeed := 3/2, particleAlpha := 7/10 }
  | .thinking => { radiusScale := 19/20, jitter := 3/2, rotationSpeed := 4/5,
                   pulseSpeed := 3, particleAlpha := 3/5 }
  | .speaking => { radiusScale := 11/10, jitter := 1, rotationSpeed := 1/2,
                   pulseSpeed := 2, particleAlpha := 17/20 }

/-- Table `MODE_COLORS`. -/
def MODE_COLORS : OrbMode → ModeColor
  | .idle => { hue := 220, saturation := 60, lightness := 50 }
  | .listening => { hue := 180, saturation := 80, lightness := 55 }
  | .thinking => { hue := 270, saturation := 70, lightness := 60 }
  | .speaking => { hue := 45, saturation := 90, lightness := 55 }

/-- Transition record held in `modeTransitionRef.current` (lines 101 to
105); the source field names are Lean keywords, hence `fromMode` and
`toMode`. -/
structure ModeTransition where
  fromMode : OrbMode
  toMode : OrbMode
  progress : ℚ
deriving DecidableEq, Repr

/-- Transition refs of the component: `modeTransitionRef` and
`prevModeRef`. -/
structure TransitionState where
  transition : ModeTransition
  prevMode : OrbMode
deriving DecidableEq, Repr

/-- Refs of a component mounted with mode `m` (lines 101 to 106): a
complete same-mode transition at progress 1, and `prevModeRef = m`. -/
def initTransitionState (m : OrbMode) : TransitionState :=
  { transition := { fromMode := m, toMode := m, progress := 1 },
    prevMode := m }

/-- Mode-change effect (lines 116 to 125): when the `mode` prop differs
from `prevModeRef.current`, replace the transition by one from the
previous mode with progress 0, and remember the new mode. -/
def modeEffect (m : OrbMode) (s : TransitionState) : TransitionState :=
  if m ≠ s.prevMode then
    { transition := { fromMode := s.prevMode, toMode := m, progress := 0 },
      prevMode := m }
  else s

/-- Per-frame progress update (lines 180 to 185):
`progress = Math.min(progress + 0.02, 1)` while `progress < 1`. -/
def frameAdvance (t : ModeTransition) : ModeTransition :=
  if t.progress < 1 then { t with progress := min (t.progress + 1/50) 1 }
  else t

/-- Linear interpolation `a + (b - a) * t` (lines 139 to 143 and 159 to
161). -/
def lerp (a b t : ℚ) : ℚ := a + (b - a) * t

/-- Style lookup `getModeParams` (lines 128 to 145). -/
def getModeParams (t : ModeTransition) : ModeParams :=
  if t.progress ≥ 1 then MODE_PARAMS t.toMode
  else
    { radiusScale := lerp (MODE_PARAMS t.fromMode).radiusScale
        (MODE_PARAMS t.toMode).radiusScale t.progress
      jitter := lerp (MODE_PARAMS t.fromMode).jitter
        (MODE_PARAMS t.toMode).jitter t.progress
      rotationSpeed := lerp (MODE_PARAMS t.fromMode).rotationSpeed
        (MODE_PARAMS t.toMode).rotationSpeed t.progress
      pulseSpeed := lerp (MODE_PARAMS t.fromMode).pulseSpeed
        (MODE_PARAMS t.toMode).pulseSpeed t.progress
      particleAlpha := lerp (MODE_PARAMS t.fromMode).particleAlpha
        (MODE_PARAMS t.toMode).particleAlpha t.progress }

/-- Color lookup `getModeColor` (lines 148 to 163). -/
def getModeColor (t : ModeTransition) : ModeColor :=
  if t.progress ≥ 1 then MODE_COLORS t.toMode
  else
    { hue := lerp (MODE_COLORS t.fromMode).hue
        (MODE_COLORS t.toMode).hue t.progress
      saturation := lerp (MODE_COLORS t.fromMode).saturation
        (MODE_COLORS t.toMode).saturation t.progress
      lightness := lerp (MODE_COLORS t.fromMode).lightness
        (MODE_COLORS t.toMode).lightness t.progress }

/-- A 3-vector (the velocity field of `types.ts`). -/
structure Vec3 where
  x : ℚ
  y : ℚ
  z : ℚ
deriving DecidableEq, Repr

/-- Particle state (`types.ts`, interface `Particle`). -/
structure Particle where
  x : ℚ
  y : ℚ
  z : ℚ
  baseX : ℚ
  baseY : ℚ
  baseZ : ℚ
  velocity : Vec3
  size : ℚ
  alpha : ℚ
  hue : ℚ
deriving DecidableEq, Repr

/-- Depth sort at the top of the draw loop (line 214): the comparator
`a.z - b.z` makes the JavaScript stable sort ascending in the
pre-rotation `z` of the particle; embedded as a stable insertion sort. -/
def sortedParticles (ps : List Particle) : List Particle :=
  ps.insertionSort (fun a b => a.z ≤ b.z)

/-- Perspective divide (line 240): `400 / (400 + rotatedZ * scale)`.  A
larger factor means the particle projects larger, i.e. sits nearer the
viewer. -/
def perspectiveFactor (rotatedZ scale : ℚ) : ℚ :=
  400 / (400 + rotatedZ * scale)

/-- Depth term of the alpha (line 252): `(perspective - 0.5) * 2`,
negative for sufficiently far particles. -/
def depthAlpha (rotatedZ scale : ℚ) : ℚ :=
  (perspectiveFactor rotatedZ scale - 1/2) * 2

/-- Alpha of the primary draw command of a particle (lines 253 to 255):
`Math.max(0, Math.min(1, depthAlpha * params.particleAlpha *
particle.alpha * (0.7 + amplitude * 0.3)))`. -/
def finalAlpha (rotatedZ scale particleAlpha alpha amp : ℚ) : ℚ :=
  max 0 (min 1 (depthAlpha rotatedZ scale * particleAlpha * alpha *
    (7/10 + amp * (3/10))))

/-- Frequency band energies (`types.ts`, field `frequencyBands`). -/
structure FrequencyBands where
  bass : ℚ
  mid : ℚ
  treble : ℚ
deriving DecidableEq, Repr

/-- Audio snapshot (`types.ts`, interface `AudioData`). -/
structure AudioData where
  amplitude : ℚ
  frequencyBands : FrequencyBands
  frequencyData : List (Fin 256)
  timeDomainData : List (Fin 256)
  isVoiceActive : Bool
deriving DecidableEq, Repr

/-- Audio scalars the render loop reads each frame (lines 194 to 199),
after the null-coalescing fallbacks for an absent snapshot. -/
structure RenderAudio where
  amplitude : ℚ
  bass : ℚ
  mid : ℚ
  treble : ℚ
  isVoiceActive : Bool
deriving DecidableEq, Repr

/-- Scalar extraction with fallbacks, `audioData?.amplitude ?? 0` and
friends (lines 195 to 199). -/
def renderAudio (a : Option AudioData) : RenderAudio :=
  { amplitude := (a.map AudioData.amplitude).getD 0
    bass := (a.map (fun d => d.frequencyBands.bass)).getD 0
    mid := (a.map (fun d => d.frequencyBands.mid)).getD 0
    treble := (a.map (fun d => d.frequencyBands.treble)).getD 0
    isVoiceActive := (a.map AudioData.isVoiceActive).getD false }

/-- A silent snapshot: zero amplitude, zero bands, no voice. -/
def silentAudio : AudioData :=
  { amplitude := 0, frequencyBands := { bass := 0, mid := 0, treble := 0 },
    frequencyData := [], timeDomainData := [], isVoiceActive := false }

/-- Radius factor `audioRadius = 1 + amplitude * 0.3 + bass * 0.2`
(line 202). -/
def audioRadius (a : RenderAudio) : ℚ :=
  1 + a.amplitude * (3/10) + a.bass * (1/5)

/-- Jitter scale
`jitterAmount = params.jitter * (1 + amplitude * 2 + treble * 1.5)`
(line 218). -/
def jitterAmount (jitter : ℚ) (a : RenderAudio) : ℚ :=
  jitter * (1 + a.amplitude * 2 + a.treble * (3/2))

/-- Displacement factor `audioDisplace`, which is `1 + mid * 0.5` when
voice is active and `1` otherwise (line 224). -/
def audioDisplace (a : RenderAudio) : ℚ :=
  if a.isVoiceActive then 1 + a.mid * (1/2) else 1

/-- Size factor `audioSize = 1 + bass * 0.5 + amplitude * 0.3`
(line 248). -/
def audioSize (a : RenderAudio) : ℚ :=
  1 + a.bass * (1/2) + a.amplitude * (3/10)

/-- Amplitude factor of the alpha, `0.7 + amplitude * 0.3` (line 254). -/
def alphaAmpFactor (a : RenderAudio) : ℚ :=
  7/10 + a.amplitude * (3/10)

/-- Hue shift `particle.hue + treble * 30` (line 258). -/
def hueShiftOf (particleHue : ℚ) (a : RenderAudio) : ℚ :=
  particleHue + a.treble * 30

/-- Saturation `color.saturation + mid * 20` (line 260). -/
def saturationOf (base : ℚ) (a : RenderAudio) : ℚ :=
  base + a.mid * 20

/-- Lightness `color.lightness + amplitude * 15` (line 261). -/
def lightnessOf (base : ℚ) (a : RenderAudio) : ℚ :=
  base + a.amplitude * 15

/-- Nearer of the two example particles of claim C6: pre-rotation
`z = -100`. -/
def pNear : Particle :=
  { x := 0, y := 0, z := -100, baseX := 0, baseY := 0, baseZ := -100,
    velocity := { x := 0, y := 0, z := 0 }, size := 1, alpha := 1, hue := 0 }

/-- Farther of the two example particles of claim C6: pre-rotation
`z = 100`. -/
def pFar : Particle :=
  { x := 0, y := 0, z := 100, baseX := 0, baseY := 0, baseZ := 100,
    velocity := { x := 0, y := 0, z := 0 }, size := 1, alpha := 1, hue := 0 }

/-! Theorems about the feature extractor. -/

theorem bassEnd_le_midEnd (binCount : ℕ) (nyquist : ℚ) (hn : 0 ≤ nyquist) :
    bassEnd binCount nyquist ≤ midEnd binCount nyquist := by
  have hw : (0 : ℚ) ≤ binWidth binCount nyquist :=
    div_nonneg hn (Nat.cast_nonneg _)
  have hdiv : (250 : ℚ) / binWidth binCount nyquist
      ≤ (2000 : ℚ) / binWidth binCount nyquist := by
    rw [div_eq_mul_inv, div_eq_mul_inv]
    exact mul_le_mul_of_nonneg_right (by norm_num) (inv_nonneg.mpr hw)
  have hfloor : (⌊(250 : ℚ) / binWidth binCount nyquist⌋ : ℤ)
      ≤ ⌊(2000 : ℚ) / binWidth binCount nyquist⌋ := Int.floor_le_floor hdiv
  exact min_le_min (Int.toNat_le_toNat hfloor) le_rfl

theorem midEnd_le_binCount (binCount : ℕ) (nyquist : ℚ) :
    midEnd binCount nyquist ≤ binCount :=
  min_le_right _ _

/-- Claim C1: for every valid configuration (positive bin count, positive
nyquist frequency) the bass, mid and treble bin ranges are pairwise
disjoint and their union is exactly the full bin range up to `binCount`:
bass ends where mid begins and mid ends where treble begins, so every bin
is owned by exactly one band. -/
theorem band_ranges_partition (binCount : ℕ) (nyquist : ℚ)
    (hb : 0 < binCount) (hn : 0 < nyquist) :
    bassBins binCount nyquist ∩ midBins binCount nyquist = ∅ ∧
    midBins binCount nyquist ∩ trebleBins binCount nyquist = ∅ ∧
    bassBins binCount nyquist ∩ trebleBins binCount nyquist = ∅ ∧
    bassBins binCount nyquist ∪ midBins binCount nyquist ∪
      trebleBins binCount nyquist = Finset.range binCount := by
  have h1 := bassEnd_le_midEnd binCount nyquist hn.le
  have h2 := midEnd_le_binCount binCount nyquist
  refine ⟨?_, ?_, ?_, ?_⟩
  · ext i
    simp only [bassBins, midBins, Finset.mem_inter, Finset.mem_Ico,
      Finset.not_mem_empty, iff_false, not_and]
    omega
  · ext i
    simp only [midBins, trebleBins, Finset.mem_inter, Finset.mem_Ico,
      Finset.not_mem_empty, iff_false, not_and]
    omega
  · ext i
    simp only [bassBins, trebleBins, Finset.mem_inter, Finset.mem_Ico,
      Finset.not_mem_empty, iff_false, not_and]
    omega
  · ext i
    simp only [bassBins, midBins, trebleBins, Finset.mem_union,
      Finset.mem_Ico, Finset.mem_range]
    omega

/-- Witness for C1 at 128 bins and a 22050 Hz nyquist frequency. -/
theorem band_ranges_partition_witness :
    0 < 128 ∧ (0 : ℚ) < 22050 ∧
    bassBins 128 22050 ∪ midBins 128 22050 ∪ trebleBins 128 22050 =
      Finset.range 128 :=
  ⟨by decide, by norm_num,
    (band_ranges_partition 128 22050 (by decide) (by norm_num)).2.2.2⟩

theorem meanSquare_nonneg (buf : List (Fin 256)) : 0 ≤ meanSquare buf := by
  unfold meanSquare
  apply div_nonneg _ (Nat.cast_nonneg _)
  apply List.sum_nonneg
  intro x hx
  rcases List.mem_map.mp hx with ⟨v, _, rfl⟩
  exact sq_nonneg _

theorem meanSquare_le_one (buf : List (Fin 256)) : meanSquare buf ≤ 1 := by
  unfold meanSquare
  apply div_le_one_of_le
  · have hbound : ∀ x ∈ buf.map (fun v => normalizedSample v ^ 2),
        x ≤ (1 : ℚ) := by
      intro x hx
      rcases List.mem_map.mp hx with ⟨v, _, rfl⟩
      have hv : ((v : ℕ) : ℚ) ≤ 255 := by
        exact_mod_cast Nat.le_of_lt_succ v.isLt
      have hv0 : (0 : ℚ) ≤ ((v : ℕ) : ℚ) := Nat.cast_nonneg _
      unfold normalizedSample
      rw [div_pow, div_le_one (by norm_num : (0 : ℚ) < 128 ^ 2)]
      nlinarith
    calc (buf.map (fun v => normalizedSample v ^ 2)).sum
        ≤ (buf.map (fun v => normalizedSample v ^ 2)).length • (1 : ℚ) :=
          List.sum_le_card_nsmul _ _ hbound
      _ = buf.length := by
          simp [List.length_map]
  · exact Nat.cast_nonneg _

/-- Claim C7: for every nonempty time-domain byte buffer (whose centered
and normalized samples necessarily lie between -1 and 1), the RMS
amplitude lies in the unit interval.  Nonemptiness matches the only
reachable inputs: an analyser bin buffer is never empty, and the quotient
`sum / length` is meaningless for an empty buffer. -/
theorem amplitude_mem_unit (buf : List (Fin 256)) (h : buf ≠ []) :
    0 ≤ amplitude buf ∧ amplitude buf ≤ 1 := by
  constructor
  · exact Real.sqrt_nonneg _
  · apply Real.sqrt_le_one.mpr
    exact_mod_cast meanSquare_le_one buf

/-- Witness for C7 at the one-sample buffer holding the centered byte
128. -/
theorem amplitude_mem_unit_witness :
    ([(128 : Fin 256)] ≠ ([] : List (Fin 256))) ∧
    (0 ≤ amplitude [(128 : Fin 256)] ∧ amplitude [(128 : Fin 256)] ≤ 1) :=
  ⟨by decide, amplitude_mem_unit [(128 : Fin 256)] (by decide)⟩

/-! Theorems about the mode state machine. -/

theorem clearTimeouts_live (s : OrbState) (h : OrbInv s) :
    (clearTimeouts s).live = [] := by
  obtain ⟨-, h2, -⟩ := h
  unfold clearTimeouts
  split
  next i heq =>
    simp only [List.filter_eq_nil_iff]
    intro p hp
    have := h2 p hp
    rw [heq] at this
    simp only [Option.some.injEq] at this
    simp [this]
  next heq =>
    cases hl : s.live with
    | nil => simp [hl]
    | cons p t =>
        have := h2 p (by rw [hl]; exact List.mem_cons_self p t)
        rw [heq] at this
        cases this

theorem clearTimeouts_nextId (s : OrbState) :
    (clearTimeouts s).nextId = s.nextId := by
  unfold clearTimeouts
  split <;> rfl

theorem clearTimeouts_mode (s : OrbState) :
    (clearTimeouts s).mode = s.mode := by
  unfold clearTimeouts
  split <;> rfl

/-- A state with no live timer is well-formed and cancels everything. -/
theorem inv_of_live_nil (s t : OrbState) (hl : t.live = []) :
    OrbInv t ∧ cancelsStale s t := by
  refine ⟨⟨?_, ?_, ?_⟩, ?_⟩
  · simp [hl]
  · intro p hp; rw [hl] at hp; cases hp
  · intro p hp; rw [hl] at hp; cases hp
  · intro p _ q hq; rw [hl] at hq; cases hq

/-- Arming one fresh timer on a state with no live timer and the original
id counter yields a well-formed state whose only timer is fresh. -/
theorem inv_of_armed (s : OrbState) (h : OrbInv s) (t : OrbState)
    (hl : t.live = []) (hn : t.nextId = s.nextId) (delay : ℕ) :
    OrbInv (armIdleTimer delay t) ∧ cancelsStale s (armIdleTimer delay t) := by
  obtain ⟨-, -, h3⟩ := h
  refine ⟨⟨?_, ?_, ?_⟩, ?_⟩
  · simp [armIdleTimer, hl]
  · intro p hp
    simp only [armIdleTimer, hl, List.nil_append, List.mem_singleton] at hp
    simp [armIdleTimer, hp]
  · intro p hp
    simp only [armIdleTimer, hl, List.nil_append, List.mem_singleton] at hp
    simp [armIdleTimer, hp]
  · intro p hp q hq
    simp only [armIdleTimer, hl, List.nil_append, List.mem_singleton] at hq
    have hid := h3 p hp
    subst hq
    show t.nextId ≠ p.id
    omega

/-- Claim C2: from any well-formed state, every operation of the hook —
the seven transition operations, `updateVoiceActivity`, and plain passage
of time — keeps the machine well-formed, so at most one timer is ever
pending; and every transition operation removes all previously armed
timers from the environment before optionally arming a fresh one, so a
stale timer can never fire after the state has moved on. -/
theorem timer_discipline (o : OrbOptions) (op : OrbOp) (s : OrbState)
    (h : OrbInv s) :
    OrbInv (applyOp o op s) ∧
    (isTransitionOp op = true → cancelsStale s (applyOp o op s)) := by
  have hl := clearTimeouts_live s h
  have hn := clearTimeouts_nextId s
  cases op with
  | opSetMode m =>
      exact ⟨(inv_of_live_nil s _ hl).1, fun _ => (inv_of_live_nil s _ hl).2⟩
  | opStartListening =>
      show OrbInv (startListening o s) ∧
        (true = true → cancelsStale s (startListening o s))
      unfold startListening
      by_cases ha : o.autoIdle = true
      · rw [if_pos ha]
        exact ⟨(inv_of_armed s h _ hl hn _).1,
          fun _ => (inv_of_armed s h _ hl hn _).2⟩
      · rw [if_neg ha]
        exact ⟨(inv_of_live_nil s _ hl).1, fun _ => (inv_of_live_nil s _ hl).2⟩
  | opStopListening =>
      exact ⟨(inv_of_live_nil s _ hl).1, fun _ => (inv_of_live_nil s _ hl).2⟩
  | opStartThinking =>
      exact ⟨(inv_of_armed s h _ hl hn _).1,
        fun _ => (inv_of_armed s h _ hl hn _).2⟩
  | opStartSpeaking =>
      exact ⟨(inv_of_live_nil s _ hl).1, fun _ => (inv_of_live_nil s _ hl).2⟩
  | opStopSpeaking =>
      exact ⟨(inv_of_live_nil s _ hl).1, fun _ => (inv_of_live_nil s _ hl).2⟩
  | opReset =>
      exact ⟨(inv_of_live_nil s _ hl).1, fun _ => (inv_of_live_nil s _ hl).2⟩
  | opUpdateVoiceActivity b =>
      refine ⟨?_, by intro hfalse; cases hfalse⟩
      show OrbInv (updateVoiceActivity o b s)
      unfold updateVoiceActivity
      by_cases hm : s.mode ≠ OrbMode.listening
      · rw [if_pos hm]; exact h
      · rw [if_neg hm]
        cases b with
        | false => exact h
        | true =>
            simp only [if_true]
            by_cases ha : o.autoIdle = true
            · rw [if_pos ha]
              exact (inv_of_armed s h _ hl hn _).1
            · rw [if_neg ha]
              exact (inv_of_live_nil s _ hl).1
  | opElapse d =>
      refine ⟨⟨?_, ?_, ?_⟩, by intro hfalse; cases hfalse⟩
      · show ((s.live.filter _).map _).length ≤ 1
        rw [List.length_map]
        exact le_trans (List.length_filter_le _ _) h.1
      · intro q hq
        simp only [applyOp, elapse, List.mem_map, List.mem_filter] at hq
        obtain ⟨p, ⟨hp, -⟩, rfl⟩ := hq
        exact h.2.1 p hp
      · intro q hq
        simp only [applyOp, elapse, List.mem_map, List.mem_filter] at hq
        obtain ⟨p, ⟨hp, -⟩, rfl⟩ := hq
        exact h.2.2 p hp

/-- Witness for C2: `startThinking` applied to a listening state that has
one armed timer — the new state is well-formed and the old timer is
gone. -/
theorem timer_discipline_witness :
    OrbInv (startListening defaultOrbOptions initOrbState) ∧
    isTransitionOp OrbOp.opStartThinking = true ∧
    OrbInv (applyOp defaultOrbOptions OrbOp.opStartThinking
      (startListening defaultOrbOptions initOrbState)) ∧
    cancelsStale (startListening defaultOrbOptions initOrbState)
      (applyOp defaultOrbOptions OrbOp.opStartThinking
        (startListening defaultOrbOptions initOrbState)) :=
  ⟨by decide, by decide,
    (timer_discipline defaultOrbOptions OrbOp.opStartThinking
      (startListening defaultOrbOptions initOrbState) (by decide)).1,
    (timer_discipline defaultOrbOptions OrbOp.opStartThinking
      (startListening defaultOrbOptions initOrbState) (by decide)).2
      (by decide)⟩

/-- Claim C10: a call of `updateVoiceActivity(false)` is a no-op in every
state: the mode is unchanged and no timer is cancelled, re-armed or
created, so absence of voice activity alone never postpones or triggers a
transition. -/
theorem updateVoiceActivity_false_noop (o : OrbOptions) (s : OrbState) :
    updateVoiceActivity o false s = s := by
  unfold updateVoiceActivity
  split
  · rfl
  · rfl

theorem startListening_armed (o : OrbOptions) (s : OrbState) (h : OrbInv s)
    (ha : o.autoIdle = true) :
    listeningArmed o.listeningTimeout (startListening o s) := by
  have hl := clearTimeouts_live s h
  unfold startListening
  rw [if_pos ha]
  refine ⟨rfl, (clearTimeouts s).nextId,
    by simp only [armIdleTimer]; omega, rfl, ?_⟩
  show ({ clearTimeouts s with mode := OrbMode.listening } : OrbState).live
    ++ _ = _
  rw [show ({ clearTimeouts s with mode := OrbMode.listening } :
    OrbState).live = (clearTimeouts s).live from rfl, hl]
  rfl

theorem elapse_armed (r d : ℕ) (s : OrbState) (h : listeningArmed r s)
    (hd : d < r) : listeningArmed (r - d) (elapse d s) := by
  obtain ⟨hm, i, hi, href, hlive⟩ := h
  have hfire : decide (r ≤ d) = false := decide_eq_false (by omega)
  have hkeep : decide (d < r) = true := decide_eq_true hd
  refine ⟨?_, i, hi, href, ?_⟩
  · show (if _ then OrbMode.idle else s.mode) = OrbMode.listening
    rw [hlive]
    simp only [List.any_cons, List.any_nil, hfire, Bool.or_false,
      Bool.false_or]
    simpa using hm
  · show (s.live.filter _).map _ = _
    rw [hlive]
    simp [List.filter, hkeep]

theorem update_rearms (o : OrbOptions) (r : ℕ) (s : OrbState)
    (h : listeningArmed r s) (ha : o.autoIdle = true) :
    listeningArmed o.listeningTimeout (updateVoiceActivity o true s) := by
  obtain ⟨hm, i, hi, href, hlive⟩ := h
  have hcl_live : (clearTimeouts s).live = [] := by
    unfold clearTimeouts
    rw [href]
    simp [hlive]
  have hcl_mode : (clearTimeouts s).mode = s.mode := clearTimeouts_mode s
  unfold updateVoiceActivity
  rw [if_neg (by simp [hm])]
  rw [if_pos rfl, if_pos ha]
  refine ⟨?_, (clearTimeouts s).nextId,
    by simp only [armIdleTimer]; omega, rfl, ?_⟩
  · show (clearTimeouts s).mode = OrbMode.listening
    rw [hcl_mode, hm]
  · show (clearTimeouts s).live ++ _ = _
    rw [hcl_live]
    rfl

theorem runVoice_armed (o : OrbOptions) (gaps : List ℕ)
    (ha : o.autoIdle = true) :
    ∀ s, listeningArmed o.listeningTimeout s →
      allShorter o.listeningTimeout gaps →
      listeningArmed o.listeningTimeout (runVoice o gaps s) := by
  induction gaps with
  | nil => intro s hs _; exact hs
  | cons d rest ih =>
      intro s hs hg
      have hd : d < o.listeningTimeout := hg d (List.mem_cons_self d rest)
      have h1 := elapse_armed _ d s hs hd
      have h2 := update_rearms o _ _ h1 ha
      exact ih _ h2 (fun x hx => hg x (List.mem_cons_of_mem d hx))

/-- Claim C3: while listening with auto-idle enabled, every call of
`updateVoiceActivity(true)` cancels and re-arms the idle-fallback timer
with the full listening timeout, so for any schedule of such calls whose
gaps are all strictly shorter than the listening timeout, the machine is
still listening after the whole schedule, and it is listening at every
moment inside each gap — no timer-forced transition to idle ever occurs
during the sequence. -/
theorem voice_activity_prevents_idle (o : OrbOptions) (s : OrbState)
    (h : OrbInv s) (ha : o.autoIdle = true) (gaps : List ℕ)
    (hg : allShorter o.listeningTimeout gaps) :
    (runVoice o gaps (startListening o s)).mode = OrbMode.listening ∧
    ∀ k, k < gaps.length → ∀ dPart, dPart ≤ gaps.getD k 0 →
      (elapse dPart
        (runVoice o (List.take k gaps) (startListening o s))).mode =
        OrbMode.listening := by
  have h0 := startListening_armed o s h ha
  constructor
  · exact (runVoice_armed o gaps ha _ h0 hg).1
  · intro k hk dPart hdp
    have htake : allShorter o.listeningTimeout (List.take k gaps) :=
      fun x hx => hg x (List.take_subset k gaps hx)
    have harmed := runVoice_armed o (List.take k gaps) ha _ h0 htake
    have hmem : gaps.getD k 0 ∈ gaps := by
      rw [List.getD_eq_getElem gaps 0 hk]
      exact List.getElem_mem hk
    have hdlt : dPart < o.listeningTimeout := lt_of_le_of_lt hdp (hg _ hmem)
    exact (elapse_armed _ dPart _ harmed hdlt).1

/-- Witness for C3: default options, voice re-asserted after 1000 ms and
then after another 1500 ms; the orb is still listening at the end and
1500 ms into the second gap. -/
theorem voice_activity_prevents_idle_witness :
    OrbInv initOrbState ∧ defaultOrbOptions.autoIdle = true ∧
    allShorter defaultOrbOptions.listeningTimeout [1000, 1500] ∧
    (runVoice defaultOrbOptions [1000, 1500]
      (startListening defaultOrbOptions initOrbState)).mode =
        OrbMode.listening ∧
    (elapse 1500 (runVoice defaultOrbOptions (List.take 1 [1000, 1500])
      (startListening defaultOrbOptions initOrbState))).mode =
        OrbMode.listening :=
  ⟨by decide, by decide, by decide,
    (voice_activity_prevents_idle defaultOrbOptions initOrbState (by decide)
      (by decide) [1000, 1500] (by decide)).1,
    (voice_activity_prevents_idle defaultOrbOptions initOrbState (by decide)
      (by decide) [1000, 1500] (by decide)).2 1 (by decide) 1500 (by decide)⟩

theorem startThinking_state (o : OrbOptions) (s : OrbState) (h : OrbInv s) :
    (startThinking o s).mode = OrbMode.thinking ∧
    (startThinking o s).live =
      [{ id := (clearTimeouts s).nextId, remaining := o.thinkingTimeout }] := by
  have hl := clearTimeouts_live s h
  refine ⟨rfl, ?_⟩
  show ({ clearTimeouts s with mode := OrbMode.thinking } : OrbState).live
    ++ _ = _
  rw [show ({ clearTimeouts s with mode := OrbMode.thinking } :
    OrbState).live = (clearTimeouts s).live from rfl, hl]
  rfl

theorem elapse_mode_of_live_nil (d : ℕ) (t : OrbState) (hl : t.live = []) :
    (elapse d t).mode = t.mode ∧ (elapse d t).live = [] := by
  constructor
  · show (if _ then OrbMode.idle else t.mode) = t.mode
    rw [hl]
    simp
  · show (t.live.filter _).map _ = []
    rw [hl]
    rfl

/-- Claim C4: after `startThinking()`, if no other operation is invoked,
the mode is still `thinking` strictly before the thinking timeout has
passed, is `idle` once the thinking timeout has passed — at which point
no timer remains scheduled — and stays `idle` under any further passage
of time: the forced transition happens exactly at the timeout and never
again. -/
theorem thinking_timeout_forces_idle (o : OrbOptions) (s : OrbState)
    (h : OrbInv s) :
    (∀ d, d < o.thinkingTimeout →
      (elapse d (startThinking o s)).mode = OrbMode.thinking) ∧
    (∀ d, o.thinkingTimeout ≤ d →
      (elapse d (startThinking o s)).mode = OrbMode.idle ∧
      (elapse d (startThinking o s)).live = []) ∧
    (∀ d dAfter, o.thinkingTimeout ≤ d →
      (elapse dAfter (elapse d (startThinking o s))).mode = OrbMode.idle) := by
  obtain ⟨hmode, hlive⟩ := startThinking_state o s h
  have hfired : ∀ d, o.thinkingTimeout ≤ d →
      (elapse d (startThinking o s)).mode = OrbMode.idle ∧
      (elapse d (startThinking o s)).live = [] := by
    intro d hd
    have ht : decide (o.thinkingTimeout ≤ d) = true := decide_eq_true hd
    have hf : decide (d < o.thinkingTimeout) = false :=
      decide_eq_false (by omega)
    constructor
    · show (if _ then OrbMode.idle else _) = OrbMode.idle
      rw [hlive]
      simp [ht]
    · show ((startThinking o s).live.filter _).map _ = []
      rw [hlive]
      simp [List.filter, hf]
  refine ⟨?_, hfired, ?_⟩
  · intro d hd
    have hf : decide (o.thinkingTimeout ≤ d) = false :=
      decide_eq_false (by omega)
    show (if _ then OrbMode.idle else _) = OrbMode.thinking
    rw [hlive]
    simp only [List.any_cons, List.any_nil, hf, Bool.or_false, Bool.false_or]
    simpa using hmode
  · intro d dAfter hd
    obtain ⟨hm, hl⟩ := hfired d hd
    rw [(elapse_mode_of_live_nil dAfter _ hl).1, hm]

/-- Witness for C4 at the default 30000 ms thinking timeout. -/
theorem thinking_timeout_forces_idle_witness :
    OrbInv initOrbState ∧
    (elapse 29999 (startThinking defaultOrbOptions initOrbState)).mode =
      OrbMode.thinking ∧
    (elapse 30000 (startThinking defaultOrbOptions initOrbState)).mode =
      OrbMode.idle ∧
    (elapse 123456 (elapse 30000
      (startThinking defaultOrbOptions initOrbState))).mode = OrbMode.idle :=
  ⟨by decide,
    (thinking_timeout_forces_idle defaultOrbOptions initOrbState
      (by decide)).1 29999 (by decide),
    ((thinking_timeout_forces_idle defaultOrbOptions initOrbState
      (by decide)).2.1 30000 (by decide)).1,
    (thinking_timeout_forces_idle defaultOrbOptions initOrbState
      (by decide)).2.2 30000 123456 (by decide)⟩

/-! Theorems about the particle renderer. -/

/-- Claim C5: a mode change replaces the `from` field with the `to` of the
previous transition and resets progress to 0, while keeping the previous
mode ref in lock-step with `to` (there is only ever the single transition
record — no queueing); each frame the progress is monotone, advances by
the fixed 0.02 increment clamped at 1 while incomplete, stays at most 1,
and once it has reached 1 both style lookups return exactly the static
profile of the `to` mode. -/
theorem transition_discipline (s : TransitionState) (m : OrbMode)
    (hinv : s.prevMode = s.transition.toMode)
    (hp : s.transition.progress ≤ 1) :
    (modeEffect m s).prevMode = (modeEffect m s).transition.toMode ∧
    (m ≠ s.transition.toMode →
      (modeEffect m s).transition.fromMode = s.transition.toMode ∧
      (modeEffect m s).transition.toMode = m ∧
      (modeEffect m s).transition.progress = 0) ∧
    s.transition.progress ≤ (frameAdvance s.transition).progress ∧
    (frameAdvance s.transition).progress ≤ 1 ∧
    (s.transition.progress < 1 →
      (frameAdvance s.transition).progress =
        min (s.transition.progress + 1/50) 1) ∧
    (1 ≤ s.transition.progress →
      getModeParams s.transition = MODE_PARAMS s.transition.toMode ∧
      getModeColor s.transition = MODE_COLORS s.transition.toMode) := by
  refine ⟨?_, ?_, ?_, ?_, ?_, ?_⟩
  · unfold modeEffect
    by_cases hm : m ≠ s.prevMode
    · rw [if_pos hm]
    · rw [if_neg hm]
      exact hinv
  · intro hm
    have hm' : m ≠ s.prevMode := by rw [hinv]; exact hm
    unfold modeEffect
    rw [if_pos hm']
    exact ⟨hinv, rfl, rfl⟩
  · unfold frameAdvance
    by_cases hlt : s.transition.progress < 1
    · rw [if_pos hlt]
      show s.transition.progress ≤ min (s.transition.progress + 1/50) 1
      exact le_min (by linarith) (by linarith)
    · rw [if_neg hlt]
  · unfold frameAdvance
    by_cases hlt : s.transition.progress < 1
    · rw [if_pos hlt]
      exact min_le_right _ _
    · rw [if_neg hlt]
      exact hp
  · intro hlt
    unfold frameAdvance
    rw [if_pos hlt]
  · intro hge
    exact ⟨by unfold getModeParams; rw [if_pos hge],
      by unfold getModeColor; rw [if_pos hge]⟩

/-- Witness for C5: an idle component switched to listening, and the
style lookup of a complete transition. -/
theorem transition_discipline_witness :
    (initTransitionState OrbMode.idle).prevMode =
      (initTransitionState OrbMode.idle).transition.toMode ∧
    (initTransitionState OrbMode.idle).transition.progress ≤ 1 ∧
    (modeEffect OrbMode.listening
      (initTransitionState OrbMode.idle)).transition.fromMode =
      (initTransitionState OrbMode.idle).transition.toMode ∧
    (modeEffect OrbMode.listening
      (initTransitionState OrbMode.idle)).transition.progress = 0 ∧
    getModeParams (initTransitionState OrbMode.idle).transition =
      MODE_PARAMS (initTransitionState OrbMode.idle).transition.toMode :=
  ⟨by decide, by decide,
    ((transition_discipline (initTransitionState OrbMode.idle)
      OrbMode.listening (by decide) (by decide)).2.1 (by decide)).1,
    ((transition_discipline (initTransitionState OrbMode.idle)
      OrbMode.listening (by decide) (by decide)).2.1 (by decide)).2.2,
    ((transition_discipline (initTransitionState OrbMode.idle)
      OrbMode.listening (by decide) (by decide)).2.2.2.2.2 (by decide)).1⟩

/-- Claim C6 fails on the code: `pNear` is strictly nearer the viewer
than `pFar` (its perspective factor is larger, 4/3 against 4/5), yet the
ascending-by-z sort of the draw loop emits `pNear` first and `pFar`
last, so the farther particle is drawn after — and over-paints — the
closer one.  The comparator `a.z - b.z` sorts ascending while the
projection `400 / (400 + z * scale)` makes larger `z` farther, so the
painter ordering stated by the spec (far to near, closer drawn last)
would require the descending sort; the sort key is moreover the
pre-rotation `z`, not the rotated depth used by the projection. -/
theorem draw_order_violates_far_to_near :
    perspectiveFactor pFar.z 1 < perspectiveFactor pNear.z 1 ∧
    sortedParticles [pFar, pNear] = [pNear, pFar] := by
  constructor
  · show (400 : ℚ) / (400 + 100 * 1) < 400 / (400 + -100 * 1)
    norm_num
  · decide

/-- Claim C8: when the render loop is given no audio snapshot, every
audio scalar it reads is zero with voice inactive, identical to the
scalars read from an explicit silent snapshot, and every per-frame
audio-dependent quantity is therefore the same as for silence — the frame
is computed without failure, exactly as for silence. -/
theorem absent_audio_renders_as_silence :
    renderAudio none =
      { amplitude := 0, bass := 0, mid := 0, treble := 0,
        isVoiceActive := false } ∧
    renderAudio none = renderAudio (some silentAudio) ∧
    ∀ jitter particleHue satBase lightBase : ℚ,
      audioRadius (renderAudio none) =
        audioRadius (renderAudio (some silentAudio)) ∧
      jitterAmount jitter (renderAudio none) =
        jitterAmount jitter (renderAudio (some silentAudio)) ∧
      audioDisplace (renderAudio none) =
        audioDisplace (renderAudio (some silentAudio)) ∧
      audioSize (renderAudio none) =
        audioSize (renderAudio (some silentAudio)) ∧
      alphaAmpFactor (renderAudio none) =
        alphaAmpFactor (renderAudio (some silentAudio)) ∧
      hueShiftOf particleHue (renderAudio none) =
        hueShiftOf particleHue (renderAudio (some silentAudio)) ∧
      saturationOf satBase (renderAudio none) =
        saturationOf satBase (renderAudio (some silentAudio)) ∧
      lightnessOf lightBase (renderAudio none) =
        lightnessOf lightBase (renderAudio (some silentAudio)) :=
  ⟨rfl, rfl, fun _ _ _ _ => ⟨rfl, rfl, rfl, rfl, rfl, rfl, rfl, rfl⟩⟩

/-- Claim C9: for every particle on every frame — any depth, mode alpha,
per-particle alpha and amplitude, even values that make the depth-derived
term negative — the alpha of the primary draw command is clamped into
the unit interval. -/
theorem finalAlpha_clamped (rotatedZ scale particleAlpha alpha amp : ℚ) :
    0 ≤ finalAlpha rotatedZ scale particleAlpha alpha amp ∧
    finalAlpha rotatedZ scale particleAlpha alpha amp ≤ 1 :=
  ⟨le_max_left 0 _, max_le (by norm_num) (min_le_left 1 _)⟩

end Athena
